import Mathlib

/-!
A shallow embedding of `sfepy/terms/terms_hyperelastic_base.py`: the
hyperelastic term base class (family-data cache, stress/tangent
dispatcher, integration adapter) and the deformation-gradient term.

Modelling conventions.  Numpy arrays are a shape together with flat
integer data; in-place writes (`out[:] = val`, material functions
writing into a caller-allocated buffer) become returned values.  The
mutable state touched by `get_fargs` — the per-field-state
`evaluate_cache` nested dictionaries and the per-term-instance
`stress_cache` slot — is threaded explicitly through an `EvalState`
record, which also carries call counters for the material stress
function, the material tangent-modulus function and
`compute_family_data`: these are the computation-count probes the
specification's testable properties prescribe, and a counter moves
exactly when the corresponding source function is invoked.  Python
`ValueError` exceptions become an explicit error type; a raising call
still returns the state as mutated so far, because a Python exception
does not undo earlier dictionary writes.  External collaborators
(geometry mapping, material stress/tangent strategy functions, the C
routine `dq_def_grad`, `get_mapping`, `get_data_shape`,
`compute_family_data` implemented by subclasses) are fields of the term
record, i.e. arbitrary functions the theorems quantify over.
-/

namespace Sfepy

/-- A dense numeric array: shape plus flat integer data (stands for the
numpy arrays of the source; no claim needs real-valued entries). -/
structure Tensor where
  shape : List Nat
  data : List Int
  deriving DecidableEq

/-- Geometry/element mapping (external collaborator `vg`): spatial
dimension, quadrature count, and the quadrature integration routine
`vg.integrate(out, val_qp, fmode) -> status`, modelled as returning the
written output buffer together with the status. -/
structure VG where
  dim : Nat
  n_qp : Nat
  integrate : Tensor → Nat → Tensor × Int

/-- The bundle of shared kinematic tensors computed by
`compute_family_data` in subclasses: deformation gradient `mtx_f`, its
determinant `det_f`, the Green strain, and further named fields used by
particular material laws. -/
structure FamilyData where
  mtx_f : Tensor
  det_f : Tensor
  green_strain : Tensor
  extra : List (String × Tensor)
  deriving DecidableEq

/-- `family_data.get(name, msg_if_none=...)`: retrieve a named field,
`none` when absent (the source then raises with the given message). -/
def FamilyData.get (fd : FamilyData) (name : String) : Option Tensor :=
  if name = "mtx_f" then some fd.mtx_f
  else if name = "det_f" then some fd.det_f
  else if name = "green_strain" then some fd.green_strain
  else fd.extra.lookup name

/-- The `ValueError` exceptions the source raises, tagged by the
specification's error taxonomy.  Each carries the data interpolated into
the source's message string (term name, offending mode, missing field
name). -/
inductive EvalError where
  | missingFamilyData (name : String)
  | unsupportedTermMode (term : String) (term_mode : Option String)
  | unsupportedEvaluationMode (term : String) (mode : Option String)
  deriving DecidableEq

/-- The mapping key returned by `get_mapping(state, return_key=True)`. -/
abbrev MapKey := List String

/-- Key of one `evaluate_cache` entry.  The source keeps nested
dictionaries `cache_name -> step -> data_key -> FamilyData` built with
`setdefault`; lookups and inserts always address the full triple, so the
nesting is flattened here into a single association list keyed by
`(cache_name, step, mapping key + derivative flag)`. -/
abbrev CacheKey := String × Int × MapKey × Option String

/-- The flattened `state.evaluate_cache`. -/
abbrev EvalCache := List (CacheKey × FamilyData)

/-- Dictionary lookup on the flattened evaluate cache. -/
def cacheLookup (c : EvalCache) (k : CacheKey) : Option FamilyData :=
  match c with
  | [] => none
  | (k0, v) :: rest => if k = k0 then some v else cacheLookup rest k

/-- A field state (`state`): the unknown's name and dtype.  The
coefficient array itself only ever flows into the external collaborators
(`compute_family_data`, `get_vector`, ...), which are modelled as
functions of the whole state. -/
structure FieldState where
  name : String
  dtype : String
  deriving DecidableEq

/-- A hyperelastic term instance: its static configuration
(`self.name`, cache name, the material-declared ordered list
`family_data_names`, the TL/UL flag `hyperelastic_mode`) plus its
external collaborators as strategy functions.  `stress_function` and
`tan_mod_function` stand for the subclass CRT routines; writing into the
caller-allocated `out` buffer is modelled as returning the result. -/
structure Term where
  name : String
  fd_cache_name : String
  family_data_names : List String
  hyperelastic_mode : Nat
  arg_steps : String → Int
  arg_derivatives : String → Option String
  get_mapping : FieldState → VG × MapKey
  compute_family_data : FieldState → FamilyData
  stress_function : Tensor → List Tensor → Tensor
  tan_mod_function : Tensor → List Tensor → Tensor
  get_data_shape : FieldState → Nat × Nat × Nat × Nat × Nat

/-- The mutable state read and written by one `get_fargs` call: the
field state's `evaluate_cache`, the term's single-slot `stress_cache`,
and the three instrumentation counters. -/
structure EvalState where
  evaluate_cache : EvalCache
  stress_cache : Option Tensor
  nStressCalls : Nat
  nTanModCalls : Nat
  nFamilyComputes : Nat
  deriving DecidableEq

/-- `HyperElasticBase.integrate(out, val_qp, vg, fmode)`: for `fmode = 2`
copy the per-quadrature-point values unchanged into the output buffer
with status 0, otherwise delegate to `vg.integrate` and return its
status.  Returns `(out, status)`. -/
def HyperElasticBase.integrate (vg : VG) (val_qp : Tensor) (fmode : Nat) :
    Tensor × Int :=
  if fmode = 2 then (val_qp, 0)
  else vg.integrate val_qp fmode

/-- The `data_key` built in `get_family_data`: the mapping key of
`get_mapping(state, return_key=True)` extended with the argument's
derivative flag, addressed under `(cache_name, arg_steps[name])`. -/
def familyKey (t : Term) (state : FieldState) (cache_name : String) : CacheKey :=
  (cache_name, t.arg_steps state.name,
   (t.get_mapping state).2, t.arg_derivatives state.name)

/-- `HyperElasticBase.get_family_data(state, cache_name, data_names)`.
The `data_names` argument is ignored, as in the source.  On a hit the
stored `FamilyData` is returned with the cache untouched; on a miss
`compute_family_data(state)` runs (counted), and the result is stored
under the key and returned.  Returns
`(family data, updated cache, updated computation count)`. -/
def HyperElasticBase.get_family_data (t : Term) (state : FieldState)
    (cache_name : String) (data_names : List String)
    (cache : EvalCache) (nComputes : Nat) : FamilyData × EvalCache × Nat :=
  let data_key := familyKey t state cache_name
  match cacheLookup cache data_key with
  | some out => (out, cache, nComputes)
  | none =>
    let out := t.compute_family_data state
    (out, (data_key, out) :: cache, nComputes + 1)

/-- The argument list `[get(name, msg_if_none=...) for name in
self.family_data_names]` assembled in `compute_stress` /
`compute_tan_mod`: the named family-data fields in declared order, or
`MissingFamilyData` at the first absent name. -/
def familyFargs (fd : FamilyData) : List String → Except EvalError (List Tensor)
  | [] => .ok []
  | n :: ns =>
    match fd.get n with
    | none => .error (.missingFamilyData n)
    | some v =>
      match familyFargs fd ns with
      | .ok vs => .ok (v :: vs)
      | .error e => .error e

/-- `HyperElasticBase.compute_stress`: assemble the required family-data
fields and apply the material stress function (the `out` buffer
allocated with `empty_like(green_strain)` is the returned value). -/
def HyperElasticBase.compute_stress (t : Term) (mat : Tensor)
    (fd : FamilyData) : Except EvalError Tensor :=
  match familyFargs fd t.family_data_names with
  | .error e => .error e
  | .ok fargs => .ok (t.stress_function mat fargs)

/-- `HyperElasticBase.compute_tan_mod`: assemble the required
family-data fields and apply the material tangent-modulus function. -/
def HyperElasticBase.compute_tan_mod (t : Term) (mat : Tensor)
    (fd : FamilyData) : Except EvalError Tensor :=
  match familyFargs fd t.family_data_names with
  | .error e => .error e
  | .ok fargs => .ok (t.tan_mod_function mat fargs)

/-- `nm.array([0], ndmin=4, dtype=nm.float64)`: the zero-filled
placeholder tangent of the residual pass, shape `[1,1,1,1]`, single
entry 0. -/
def zeroTanMod : Tensor := { shape := [1, 1, 1, 1], data := [0] }

/-- What `get_fargs` hands to the term's function: either the weak-form
argument pack `(stress, tan_mod, mtx_f, det_f, vg, fmode,
hyperelastic_mode)` destined for `weak_function`, or the
`(out_qp, vg, fmode)` pack destined for `HyperElasticBase.integrate`. -/
inductive FargsResult where
  | weak (stress tan_mod mtx_f det_f : Tensor) (vg : VG) (fmode : Nat)
      (hyperelastic_mode : Nat)
  | integrateArgs (out_qp : Tensor) (vg : VG) (fmode : Nat)

/-- The stress component of a weak-form argument pack. -/
def FargsResult.stressOf : FargsResult → Option Tensor
  | .weak stress _ _ _ _ _ _ => some stress
  | .integrateArgs _ _ _ => none

/-- Lines 101–102 of the source: the unconditional family-data fetch at
the top of `get_fargs`. -/
def fetchedFD (t : Term) (st : FieldState) (s : EvalState) :
    FamilyData × EvalCache × Nat :=
  HyperElasticBase.get_family_data t st t.fd_cache_name t.family_data_names
    s.evaluate_cache s.nFamilyComputes

/-- `HyperElasticBase.get_fargs`.  Returns the term-function argument
pack (or the raised error) together with the state after the call.  All
mutations performed before a raise are kept, as in Python.  The unused
`virtual` parameter of the source is omitted. -/
def HyperElasticBase.get_fargs (t : Term) (mat : Tensor) (state : FieldState)
    (mode term_mode diff_var : Option String) (s : EvalState) :
    Except EvalError FargsResult × EvalState :=
  let vg := (t.get_mapping state).1
  let fdr := fetchedFD t state s
  let fd := fdr.1
  let s1 : EvalState :=
    { s with evaluate_cache := fdr.2.1, nFamilyComputes := fdr.2.2 }
  if mode = some "weak" then
    match diff_var with
    | none =>
      match HyperElasticBase.compute_stress t mat fd with
      | .error e => (.error e, s1)
      | .ok stress =>
        (.ok (.weak stress zeroTanMod fd.mtx_f fd.det_f vg 0
            t.hyperelastic_mode),
         { s1 with stress_cache := some stress,
                   nStressCalls := s1.nStressCalls + 1 })
    | some _ =>
      match s1.stress_cache with
      | some stress =>
        match HyperElasticBase.compute_tan_mod t mat fd with
        | .error e => (.error e, s1)
        | .ok tan_mod =>
          (.ok (.weak stress tan_mod fd.mtx_f fd.det_f vg 1
              t.hyperelastic_mode),
           { s1 with nTanModCalls := s1.nTanModCalls + 1 })
      | none =>
        match HyperElasticBase.compute_stress t mat fd with
        | .error e => (.error e, s1)
        | .ok stress =>
          let s2 := { s1 with nStressCalls := s1.nStressCalls + 1 }
          match HyperElasticBase.compute_tan_mod t mat fd with
          | .error e => (.error e, s2)
          | .ok tan_mod =>
            (.ok (.weak stress tan_mod fd.mtx_f fd.det_f vg 1
                t.hyperelastic_mode),
             { s2 with nTanModCalls := s2.nTanModCalls + 1 })
  else if mode = some "el_avg" ∨ mode = some "qp" then
    let fmode := if mode = some "el_avg" then 1 else 2
    if term_mode = some "strain" then
      (.ok (.integrateArgs fd.green_strain vg fmode), s1)
    else if term_mode = some "stress" then
      match HyperElasticBase.compute_stress t mat fd with
      | .error e => (.error e, s1)
      | .ok out_qp =>
        (.ok (.integrateArgs out_qp vg fmode),
         { s1 with nStressCalls := s1.nStressCalls + 1 })
    else
      (.error (.unsupportedTermMode t.name term_mode), s1)
  else
    (.error (.unsupportedEvaluationMode t.name mode), s1)

/-- `HyperElasticBase.get_eval_shape`: `(n_el, n_qp, sym, 1)` with
`sym = dim (dim + 1) / 2` and `n_qp` forced to 1 for every mode other
than `qp`, paired with the state's dtype.  The unused `mat`, `virtual`,
`term_mode`, `diff_var` parameters of the source are omitted. -/
def HyperElasticBase.get_eval_shape (t : Term) (state : FieldState)
    (mode : Option String) : (Nat × Nat × Nat × Nat) × String :=
  let d := t.get_data_shape state
  let n_el := d.1
  let dim := d.2.2.1
  let sym := dim * (dim + 1) / 2
  let n_qp := if mode ≠ some "qp" then 1 else d.2.1
  ((n_el, n_qp, sym, 1), state.dtype)

/-- Element connectivity, as handed out by `get_approximation`. -/
structure Approx where
  econn : List (List Nat)

/-- The deformation-gradient term `ev_def_grad`: its external
collaborators (`get_approximation`, `get_vector`, `get_data_shape`) as
strategy functions. -/
structure DGTerm where
  get_approximation : FieldState → Approx × VG
  get_vector : FieldState → Tensor
  get_data_shape : FieldState → Nat × Nat × Nat × Nat × Nat

/-- `DeformationGradientTerm.function(out, vec, vg, econn, term_mode,
fmode)`: evaluate F (mode 0) or J (mode 1) at quadrature points through
the external C routine `dq_def_grad` (a parameter here), then either
copy point-wise (`fmode = 2`, status 0) or integrate through the
mapping, propagating its status.  Returns `(out, status)`. -/
def DeformationGradientTerm.function
    (dq_def_grad : Tensor → VG → List (List Nat) → Nat → Tensor)
    (vec : Tensor) (vg : VG) (econn : List (List Nat))
    (term_mode : Option String) (fmode : Nat) : Tensor × Int :=
  let m := if term_mode = some "jacobian" then 1 else 0
  let out_qp := dq_def_grad vec vg econn m
  if fmode = 2 then (out_qp, 0)
  else vg.integrate out_qp fmode

/-- `DeformationGradientTerm.get_fargs`: returns
`(vec, vg, econn, term_mode, fmode)` with
`fmode = {'eval': 0, 'el_avg': 1, 'qp': 2}.get(mode, 1)` — an
unrecognized mode silently defaults to 1. -/
def DeformationGradientTerm.get_fargs (t : DGTerm) (parameter : FieldState)
    (mode term_mode diff_var : Option String) :
    Tensor × VG × List (List Nat) × Option String × Nat :=
  let av := t.get_approximation parameter
  let vec := t.get_vector parameter
  let fmode :=
    if mode = some "eval" then 0
    else if mode = some "el_avg" then 1
    else if mode = some "qp" then 2
    else 1
  (vec, av.2, av.1.econn, term_mode, fmode)

/-- `DeformationGradientTerm.get_eval_shape`: `(n_el, n_qp, 1, 1)` for
`term_mode='jacobian'`, `(n_el, n_qp, dim, dim)` otherwise, with `n_qp`
forced to 1 for every mode other than `qp`. -/
def DeformationGradientTerm.get_eval_shape (t : DGTerm)
    (parameter : FieldState) (mode term_mode : Option String) :
    (Nat × Nat × Nat × Nat) × String :=
  let d := t.get_data_shape parameter
  let n_el := d.1
  let n_qp := if mode ≠ some "qp" then 1 else d.2.1
  let dim := d.2.2.1
  if term_mode = some "jacobian" then ((n_el, n_qp, 1, 1), parameter.dtype)
  else ((n_el, n_qp, dim, dim), parameter.dtype)

/-! Concrete sample instances, used to evaluate the development on
closed inputs. -/

/-- A sample material-parameter array. -/
def tScalar : Tensor := { shape := [1], data := [5] }

/-- A sample deformation-gradient array. -/
def tF : Tensor := { shape := [10, 4, 3, 3], data := [] }

/-- A sample determinant array. -/
def tJ : Tensor := { shape := [10, 4, 1, 1], data := [] }

/-- A sample Green-strain array. -/
def tE : Tensor := { shape := [10, 4, 6, 1], data := [] }

/-- A sample geometry mapping whose integration routine reports the
requested fmode as its status, so that status propagation is visible. -/
def sampleVG : VG :=
  { dim := 3, n_qp := 4, integrate := fun v fmode => (v, Int.ofNat fmode) }

/-- A sample family-data bundle. -/
def sampleFD : FamilyData :=
  { mtx_f := tF, det_f := tJ, green_strain := tE, extra := [] }

/-- A sample field state. -/
def sampleState : FieldState := { name := "u", dtype := "float64" }

/-- A sample hyperelastic term instance with injective strategy
functions. -/
def sampleTerm : Term :=
  { name := "dw_tl_he_neohook",
    fd_cache_name := "tl_common",
    family_data_names := ["det_f", "green_strain"],
    hyperelastic_mode := 0,
    arg_steps := fun _ => 0,
    arg_derivatives := fun _ => none,
    get_mapping := fun _ => (sampleVG, ["Omega", "i1"]),
    compute_family_data := fun _ => sampleFD,
    stress_function := fun mat fargs =>
      { shape := [10, 4, 6, 1],
        data := [Int.ofNat mat.data.length, Int.ofNat fargs.length] },
    tan_mod_function := fun _ _ => { shape := [10, 4, 6, 6], data := [7] },
    get_data_shape := fun _ => (10, 4, 3, 8, 3) }

/-- A sample deformation-gradient term instance. -/
def sampleDGTerm : DGTerm :=
  { get_approximation := fun _ => ({ econn := [[0, 1, 2, 3]] }, sampleVG),
    get_vector := fun _ => tScalar,
    get_data_shape := fun _ => (10, 4, 3, 8, 3) }

/-- The pristine evaluation state: cold caches, zeroed counters. -/
def sampleS0 : EvalState :=
  { evaluate_cache := [], stress_cache := none,
    nStressCalls := 0, nTanModCalls := 0, nFamilyComputes := 0 }

/-- The state left by a residual evaluation of the sample term from the
pristine state, computed by hand: the family-data cache gained one
entry, the stress cache holds the sample stress, one stress call, one
family computation. -/
def sampleS1 : EvalState :=
  { evaluate_cache := [(("tl_common", 0, ["Omega", "i1"], none), sampleFD)],
    stress_cache := some { shape := [10, 4, 6, 1], data := [1, 2] },
    nStressCalls := 1, nTanModCalls := 0, nFamilyComputes := 1 }

/-- The weak-form argument pack returned by that residual evaluation. -/
def sampleR1 : FargsResult :=
  .weak { shape := [10, 4, 6, 1], data := [1, 2] } zeroTanMod tF tJ
    sampleVG 0 0

/-! Helper lemmas about the family-data cache. -/

/-- A freshly inserted cache entry is found. -/
theorem cacheLookup_cons_self (c : EvalCache) (k : CacheKey) (v : FamilyData) :
    cacheLookup ((k, v) :: c) k = some v := by
  simp [cacheLookup]

/-- After any `get_family_data` call, the cache maps the family key to
exactly the returned family data. -/
theorem gfd_lookup (t : Term) (st : FieldState) (cn : String)
    (dn : List String) (c : EvalCache) (n : Nat) :
    cacheLookup (HyperElasticBase.get_family_data t st cn dn c n).2.1
        (familyKey t st cn)
      = some (HyperElasticBase.get_family_data t st cn dn c n).1 := by
  unfold HyperElasticBase.get_family_data
  cases h : cacheLookup c (familyKey t st cn) <;>
    simp [h, cacheLookup_cons_self]

/-- A `get_family_data` call against a cache that already holds the key
is a pure hit: stored data returned, cache and computation count
untouched. -/
theorem gfd_hit (t : Term) (st : FieldState) (cn : String)
    (dn : List String) (c : EvalCache) (n : Nat) (fd : FamilyData)
    (h : cacheLookup c (familyKey t st cn) = some fd) :
    HyperElasticBase.get_family_data t st cn dn c n = (fd, c, n) := by
  unfold HyperElasticBase.get_family_data
  simp [h]

/-- If the caller's cache layout and computation count already are the
ones a family-data fetch from `s` produces, a further fetch is a pure
hit on the same data. -/
theorem fetchedFD_stable (t : Term) (st : FieldState) (s s1 : EvalState)
    (hc : s1.evaluate_cache = (fetchedFD t st s).2.1)
    (hn : s1.nFamilyComputes = (fetchedFD t st s).2.2) :
    fetchedFD t st s1
      = ((fetchedFD t st s).1, s1.evaluate_cache, s1.nFamilyComputes) := by
  unfold fetchedFD at *
  rw [hc, hn]
  exact gfd_hit t st _ _ _ _ _ (gfd_lookup t st _ _ _ _)

/-- Branch equation: the weak residual pass (`mode='weak'`,
`diff_var=None`), under successful assembly of the required family-data
fields. -/
theorem fargs_residual_eq (t : Term) (mat : Tensor) (st : FieldState)
    (tm : Option String) (s : EvalState) (fargs : List Tensor)
    (h : familyFargs (fetchedFD t st s).1 t.family_data_names = .ok fargs) :
    HyperElasticBase.get_fargs t mat st (some "weak") tm none s
      = (.ok (.weak (t.stress_function mat fargs) zeroTanMod
            (fetchedFD t st s).1.mtx_f (fetchedFD t st s).1.det_f
            (t.get_mapping st).1 0 t.hyperelastic_mode),
         { s with evaluate_cache := (fetchedFD t st s).2.1,
                  nFamilyComputes := (fetchedFD t st s).2.2,
                  stress_cache := some (t.stress_function mat fargs),
                  nStressCalls := s.nStressCalls + 1 }) := by
  unfold HyperElasticBase.get_fargs HyperElasticBase.compute_stress
  simp [h]

/-- Branch equation: the weak residual pass when a required family-data
field is missing — the error propagates and the family-data fetch is
the only state change. -/
theorem fargs_residual_err (t : Term) (mat : Tensor) (st : FieldState)
    (tm : Option String) (s : EvalState) (e : EvalError)
    (h : familyFargs (fetchedFD t st s).1 t.family_data_names = .error e) :
    HyperElasticBase.get_fargs t mat st (some "weak") tm none s
      = (.error e,
         { s with evaluate_cache := (fetchedFD t st s).2.1,
                  nFamilyComputes := (fetchedFD t st s).2.2 }) := by
  unfold HyperElasticBase.get_fargs HyperElasticBase.compute_stress
  simp [h]

/-- Branch equation: the weak tangent pass with an empty stress cache
recomputes the stress (one stress call) and computes the tangent. -/
theorem fargs_tangent_none_eq (t : Term) (mat : Tensor) (st : FieldState)
    (tm : Option String) (dv : String) (s : EvalState) (fargs : List Tensor)
    (hsc : s.stress_cache = none)
    (h : familyFargs (fetchedFD t st s).1 t.family_data_names = .ok fargs) :
    HyperElasticBase.get_fargs t mat st (some "weak") tm (some dv) s
      = (.ok (.weak (t.stress_function mat fargs)
            (t.tan_mod_function mat fargs)
            (fetchedFD t st s).1.mtx_f (fetchedFD t st s).1.det_f
            (t.get_mapping st).1 1 t.hyperelastic_mode),
         { s with evaluate_cache := (fetchedFD t st s).2.1,
                  nFamilyComputes := (fetchedFD t st s).2.2,
                  nStressCalls := s.nStressCalls + 1,
                  nTanModCalls := s.nTanModCalls + 1 }) := by
  unfold HyperElasticBase.get_fargs HyperElasticBase.compute_stress
    HyperElasticBase.compute_tan_mod
  simp [h, hsc]

/-- Branch equation: the weak tangent pass with a filled stress cache
reuses the cached stress (no stress call) and computes the tangent. -/
theorem fargs_tangent_some_eq (t : Term) (mat : Tensor) (st : FieldState)
    (tm : Option String) (dv : String) (s : EvalState) (fargs : List Tensor)
    (stress0 : Tensor) (hsc : s.stress_cache = some stress0)
    (h : familyFargs (fetchedFD t st s).1 t.family_data_names = .ok fargs) :
    HyperElasticBase.get_fargs t mat st (some "weak") tm (some dv) s
      = (.ok (.weak stress0 (t.tan_mod_function mat fargs)
            (fetchedFD t st s).1.mtx_f (fetchedFD t st s).1.det_f
            (t.get_mapping st).1 1 t.hyperelastic_mode),
         { s with evaluate_cache := (fetchedFD t st s).2.1,
                  nFamilyComputes := (fetchedFD t st s).2.2,
                  nTanModCalls := s.nTanModCalls + 1 }) := by
  unfold HyperElasticBase.get_fargs HyperElasticBase.compute_tan_mod
  simp [h, hsc]

/-- C2: two consecutive `get_family_data` calls with the same composite
key on an unchanged field state return the identical stored FamilyData
(the second call hands back the very entry the first call left in the
cache), leave the cache untouched, and do not invoke
`compute_family_data` again (the computation count is unchanged). -/
theorem get_family_data_idempotent (t : Term) (st : FieldState)
    (cn : String) (dn : List String) (c : EvalCache) (n : Nat) :
    HyperElasticBase.get_family_data t st cn dn
        (HyperElasticBase.get_family_data t st cn dn c n).2.1
        (HyperElasticBase.get_family_data t st cn dn c n).2.2
      = ((HyperElasticBase.get_family_data t st cn dn c n).1,
         (HyperElasticBase.get_family_data t st cn dn c n).2.1,
         (HyperElasticBase.get_family_data t st cn dn c n).2.2) :=
  gfd_hit t st cn dn _ _ _ (gfd_lookup t st cn dn c n)

/-- C8: the integration adapter copies per-quadrature-point values
unchanged with status 0 when `fmode = 2`, and for every other fmode
delegates to the geometry mapping's integrate routine, returning its
output and status unmodified, so a non-zero failure status propagates to
the caller. -/
theorem integrate_adapter (vg : VG) (val_qp : Tensor) (fmode : Nat) :
    (fmode = 2 → HyperElasticBase.integrate vg val_qp fmode = (val_qp, 0)) ∧
    (fmode ≠ 2 →
      HyperElasticBase.integrate vg val_qp fmode = vg.integrate val_qp fmode ∧
      (HyperElasticBase.integrate vg val_qp fmode).2
        = (vg.integrate val_qp fmode).2) := by
  unfold HyperElasticBase.integrate
  constructor
  · intro h
    simp [h]
  · intro h
    simp [h]

/-- Closed instance of `integrate_adapter`: with the sample mapping,
`fmode = 2` is a pass-through copy with status 0, and `fmode = 1`
returns exactly what the mapping's integrate routine returns (here a
non-zero status, visibly propagated). -/
theorem integrate_adapter_witness :
    HyperElasticBase.integrate sampleVG tE 2 = (tE, 0) ∧
    HyperElasticBase.integrate sampleVG tE 1 = sampleVG.integrate tE 1 ∧
    (HyperElasticBase.integrate sampleVG tE 1).2 = 1 :=
  ⟨(integrate_adapter sampleVG tE 2).1 rfl,
   ((integrate_adapter sampleVG tE 1).2 (by decide)).1,
   (((integrate_adapter sampleVG tE 1).2 (by decide)).2).trans (by decide)⟩

/-- C4: `HyperElasticBase.get_eval_shape` returns
`(n_el, n_qp_effective, sym, 1)` with `sym = dim (dim + 1) / 2` and
`n_qp_effective = n_qp` only in `qp` mode, 1 in every other mode; the
shape depends only on the data shape `(n_el, n_qp, dim, ...)` and the
mode, never on tensor values. -/
theorem hyperelastic_eval_shape (t : Term) (st : FieldState)
    (mode : Option String) (n_el n_qp dim n_en n_c : Nat)
    (h : t.get_data_shape st = (n_el, n_qp, dim, n_en, n_c)) :
    HyperElasticBase.get_eval_shape t st mode
      = ((n_el, if mode = some "qp" then n_qp else 1,
          dim * (dim + 1) / 2, 1), st.dtype) := by
  unfold HyperElasticBase.get_eval_shape
  rw [h]
  by_cases hm : mode = some "qp" <;> simp [hm]

/-- Closed instance of `hyperelastic_eval_shape` at `dim = 3`,
`n_el = 10`, `n_qp = 4`: mode `el_avg` yields shape `(10, 1, 6, 1)` and
mode `qp` yields `(10, 4, 6, 1)`. -/
theorem hyperelastic_eval_shape_witness :
    HyperElasticBase.get_eval_shape sampleTerm sampleState (some "el_avg")
        = ((10, 1, 6, 1), "float64") ∧
    HyperElasticBase.get_eval_shape sampleTerm sampleState (some "qp")
        = ((10, 4, 6, 1), "float64") :=
  ⟨(hyperelastic_eval_shape sampleTerm sampleState (some "el_avg")
      10 4 3 8 3 rfl).trans (by decide),
   (hyperelastic_eval_shape sampleTerm sampleState (some "qp")
      10 4 3 8 3 rfl).trans (by decide)⟩

/-- C9: `DeformationGradientTerm.get_eval_shape` declares
`(n_el, n_qp_effective, 1, 1)` for `term_mode='jacobian'` and
`(n_el, n_qp_effective, dim, dim)` otherwise, where `n_qp_effective` is
the true quadrature count only for mode `qp` and 1 for every other
mode. -/
theorem def_grad_eval_shape (t : DGTerm) (p : FieldState)
    (mode tm : Option String) (n_el n_qp dim n_en n_c : Nat)
    (h : t.get_data_shape p = (n_el, n_qp, dim, n_en, n_c)) :
    DeformationGradientTerm.get_eval_shape t p mode tm
      = ((n_el, if mode = some "qp" then n_qp else 1,
          if tm = some "jacobian" then 1 else dim,
          if tm = some "jacobian" then 1 else dim), p.dtype) := by
  unfold DeformationGradientTerm.get_eval_shape
  rw [h]
  by_cases hm : mode = some "qp" <;> by_cases ht : tm = some "jacobian" <;>
    simp [hm, ht]

/-- Closed instance of `def_grad_eval_shape`: jacobian shapes
`(10, 1, 1, 1)` / `(10, 4, 1, 1)` and def-grad shapes `(10, 1, 3, 3)` /
`(10, 4, 3, 3)` for the sample term. -/
theorem def_grad_eval_shape_witness :
    DeformationGradientTerm.get_eval_shape sampleDGTerm sampleState
        (some "el_avg") (some "jacobian") = ((10, 1, 1, 1), "float64") ∧
    DeformationGradientTerm.get_eval_shape sampleDGTerm sampleState
        (some "qp") (some "def_grad") = ((10, 4, 3, 3), "float64") :=
  ⟨(def_grad_eval_shape sampleDGTerm sampleState (some "el_avg")
      (some "jacobian") 10 4 3 8 3 rfl).trans (by decide),
   (def_grad_eval_shape sampleDGTerm sampleState (some "qp")
      (some "def_grad") 10 4 3 8 3 rfl).trans (by decide)⟩

/-- C3 counterexample: evaluating the sample term with `mode='bogus'`
from a cold cache does NOT leave the family-data evaluate cache
unmutated — the unconditional family-data fetch at the top of
`get_fargs` populates it before the unsupported-mode error is raised. -/
theorem bogus_mode_counterexample :
    ¬ (HyperElasticBase.get_fargs sampleTerm tScalar sampleState
          (some "bogus") none none sampleS0).2.evaluate_cache
        = sampleS0.evaluate_cache := by
  decide

/-- C3 amended: an unsupported evaluation mode raises
`UnsupportedEvaluationMode` naming the offending term and mode, leaves
the single-slot stress cache and both material call counters unmutated,
but the family-data evaluate cache is still updated by the
unconditional family-data fetch performed before the mode dispatch (so
it gains an entry whenever that fetch misses). -/
theorem bogus_mode_behaviour (t : Term) (mat : Tensor) (st : FieldState)
    (mode tm dv : Option String) (s : EvalState)
    (hw : mode ≠ some "weak") (ha : mode ≠ some "el_avg")
    (hq : mode ≠ some "qp") :
    HyperElasticBase.get_fargs t mat st mode tm dv s
      = (.error (.unsupportedEvaluationMode t.name mode),
         { s with evaluate_cache := (fetchedFD t st s).2.1,
                  nFamilyComputes := (fetchedFD t st s).2.2 }) := by
  unfold HyperElasticBase.get_fargs
  simp [hw, ha, hq]

/-- Closed instance of `bogus_mode_behaviour` at `mode='bogus'` from a
cold cache: the error names the sample term and the mode, the stress
cache and material counters stay pristine, and the family-data cache
has gained the freshly computed entry. -/
theorem bogus_mode_behaviour_witness :
    HyperElasticBase.get_fargs sampleTerm tScalar sampleState (some "bogus")
        none none sampleS0
      = (.error (.unsupportedEvaluationMode "dw_tl_he_neohook"
            (some "bogus")),
         { evaluate_cache :=
             [(("tl_common", 0, ["Omega", "i1"], none), sampleFD)],
           stress_cache := none, nStressCalls := 0, nTanModCalls := 0,
           nFamilyComputes := 1 }) :=
  bogus_mode_behaviour sampleTerm tScalar sampleState (some "bogus") none
    none sampleS0 (by decide) (by decide) (by decide)

/-- C1: a successful weak-mode residual evaluation followed immediately
by a weak-mode tangent evaluation at the same unchanged state calls the
material stress function exactly once across the two calls (the
residual pass raises the stress counter by one, the tangent pass leaves
it unchanged), because the tangent pass reuses the stress the residual
pass left in the single-slot stress cache: the stress of the tangent
pack equals the stress of the residual pack. -/
theorem stress_cache_reuse (t : Term) (mat : Tensor) (st : FieldState)
    (tm tm2 : Option String) (dv : String) (s s1 : EvalState)
    (r1 : FargsResult)
    (h : HyperElasticBase.get_fargs t mat st (some "weak") tm none s
      = (.ok r1, s1)) :
    s1.nStressCalls = s.nStressCalls + 1 ∧
    s1.stress_cache = FargsResult.stressOf r1 ∧
    (HyperElasticBase.get_fargs t mat st (some "weak") tm2 (some dv)
        s1).2.nStressCalls = s1.nStressCalls ∧
    ∀ r2 s2,
      HyperElasticBase.get_fargs t mat st (some "weak") tm2 (some dv) s1
        = (.ok r2, s2) →
      FargsResult.stressOf r2 = FargsResult.stressOf r1 := by
  cases hfam : familyFargs (fetchedFD t st s).1 t.family_data_names with
  | error e =>
    rw [fargs_residual_err t mat st tm s e hfam] at h
    exact absurd (congrArg Prod.fst h) (by simp)
  | ok fargs =>
    rw [fargs_residual_eq t mat st tm s fargs hfam] at h
    rw [Prod.mk.injEq] at h
    obtain ⟨hr, hs⟩ := h
    rw [Except.ok.injEq] at hr
    subst hr
    subst hs
    have hstable := fetchedFD_stable t st s
      { s with evaluate_cache := (fetchedFD t st s).2.1,
               nFamilyComputes := (fetchedFD t st s).2.2,
               stress_cache := some (t.stress_function mat fargs),
               nStressCalls := s.nStressCalls + 1 } rfl rfl
    have hfam2 : familyFargs
        (fetchedFD t st
          { s with evaluate_cache := (fetchedFD t st s).2.1,
                   nFamilyComputes := (fetchedFD t st s).2.2,
                   stress_cache := some (t.stress_function mat fargs),
                   nStressCalls := s.nStressCalls + 1 }).1
        t.family_data_names = .ok fargs := by
      rw [hstable]
      exact hfam
    have htan := fargs_tangent_some_eq t mat st tm2 dv
      { s with evaluate_cache := (fetchedFD t st s).2.1,
               nFamilyComputes := (fetchedFD t st s).2.2,
               stress_cache := some (t.stress_function mat fargs),
               nStressCalls := s.nStressCalls + 1 }
      fargs (t.stress_function mat fargs) rfl hfam2
    refine ⟨rfl, rfl, ?_, ?_⟩
    · rw [htan]
    · intro r2 s2 h2
      rw [htan, Prod.mk.injEq] at h2
      obtain ⟨hr2, hs2⟩ := h2
      rw [Except.ok.injEq] at hr2
      subst hr2
      rfl

/-- Closed instance of `stress_cache_reuse`: on the sample term the
residual evaluation from the pristine state raises the stress counter
to 1 and caches the sample stress, and the immediately following
tangent evaluation leaves the counter at 1 and returns that very
stress. -/
theorem stress_cache_reuse_witness :
    sampleS1.nStressCalls = sampleS0.nStressCalls + 1 ∧
    sampleS1.stress_cache = FargsResult.stressOf sampleR1 ∧
    (HyperElasticBase.get_fargs sampleTerm tScalar sampleState (some "weak")
        none (some "u") sampleS1).2.nStressCalls = sampleS1.nStressCalls ∧
    ∀ r2 s2,
      HyperElasticBase.get_fargs sampleTerm tScalar sampleState (some "weak")
          none (some "u") sampleS1 = (.ok r2, s2) →
      FargsResult.stressOf r2 = FargsResult.stressOf sampleR1 :=
  stress_cache_reuse sampleTerm tScalar sampleState none none "u" sampleS0
    sampleS1 sampleR1 rfl

/-- C5: the weak-mode residual evaluation computes the stress by
applying the material stress function to the family-data fields named,
in order, in the material-declared `family_data_names` list, overwrites
the single-slot stress cache with exactly that stress, and returns the
zero-filled placeholder tangent `nm.array([0], ndmin=4)` together with
the residual integration flag `fmode = 0`. -/
theorem residual_pass (t : Term) (mat : Tensor) (st : FieldState)
    (tm : Option String) (s : EvalState) (fargs : List Tensor)
    (h : familyFargs (fetchedFD t st s).1 t.family_data_names = .ok fargs) :
    HyperElasticBase.get_fargs t mat st (some "weak") tm none s
      = (.ok (.weak (t.stress_function mat fargs) zeroTanMod
            (fetchedFD t st s).1.mtx_f (fetchedFD t st s).1.det_f
            (t.get_mapping st).1 0 t.hyperelastic_mode),
         { s with evaluate_cache := (fetchedFD t st s).2.1,
                  nFamilyComputes := (fetchedFD t st s).2.2,
                  stress_cache := some (t.stress_function mat fargs),
                  nStressCalls := s.nStressCalls + 1 }) :=
  fargs_residual_eq t mat st tm s fargs h

/-- Closed instance of `residual_pass` on the sample term from the
pristine state: the stress is the stress function applied to
`[det_f, green_strain]`, the stress cache is overwritten with it, the
placeholder tangent is the zero array, and `fmode = 0`. -/
theorem residual_pass_witness :
    HyperElasticBase.get_fargs sampleTerm tScalar sampleState (some "weak")
        none none sampleS0
      = (.ok (.weak (sampleTerm.stress_function tScalar [tJ, tE]) zeroTanMod
            tF tJ sampleVG 0 0),
         sampleS1) :=
  residual_pass sampleTerm tScalar sampleState none sampleS0 [tJ, tE] rfl

/-- C6: a weak-mode tangent evaluation finding the single-slot stress
cache empty falls back to recomputing the stress via the material
stress function (one counted stress call), and every tangent evaluation
— cached or not — computes the tangent modulus via the material tangent
function and returns stress, tangent, deformation gradient,
determinant, the geometry mapping, the integration flag `fmode = 1` and
the formulation flag. -/
theorem tangent_pass (t : Term) (mat : Tensor) (st : FieldState)
    (tm : Option String) (dv : String) (s : EvalState) (fargs : List Tensor)
    (h : familyFargs (fetchedFD t st s).1 t.family_data_names = .ok fargs) :
    (s.stress_cache = none →
      HyperElasticBase.get_fargs t mat st (some "weak") tm (some dv) s
        = (.ok (.weak (t.stress_function mat fargs)
              (t.tan_mod_function mat fargs)
              (fetchedFD t st s).1.mtx_f (fetchedFD t st s).1.det_f
              (t.get_mapping st).1 1 t.hyperelastic_mode),
           { s with evaluate_cache := (fetchedFD t st s).2.1,
                    nFamilyComputes := (fetchedFD t st s).2.2,
                    nStressCalls := s.nStressCalls + 1,
                    nTanModCalls := s.nTanModCalls + 1 })) ∧
    (∀ stress0, s.stress_cache = some stress0 →
      HyperElasticBase.get_fargs t mat st (some "weak") tm (some dv) s
        = (.ok (.weak stress0 (t.tan_mod_function mat fargs)
              (fetchedFD t st s).1.mtx_f (fetchedFD t st s).1.det_f
              (t.get_mapping st).1 1 t.hyperelastic_mode),
           { s with evaluate_cache := (fetchedFD t st s).2.1,
                    nFamilyComputes := (fetchedFD t st s).2.2,
                    nTanModCalls := s.nTanModCalls + 1 })) :=
  ⟨fun hsc => fargs_tangent_none_eq t mat st tm dv s fargs hsc h,
   fun stress0 hsc => fargs_tangent_some_eq t mat st tm dv s fargs stress0 hsc h⟩

/-- Closed instance of `tangent_pass` on the sample term from the
pristine state (empty stress cache): the tangent pass recomputes the
stress, computes the tangent, and returns the full weak-form pack with
`fmode = 1`. -/
theorem tangent_pass_witness :
    HyperElasticBase.get_fargs sampleTerm tScalar sampleState (some "weak")
        none (some "u") sampleS0
      = (.ok (.weak (sampleTerm.stress_function tScalar [tJ, tE])
            (sampleTerm.tan_mod_function tScalar [tJ, tE]) tF tJ
            sampleVG 1 0),
         { evaluate_cache :=
             [(("tl_common", 0, ["Omega", "i1"], none), sampleFD)],
           stress_cache := none, nStressCalls := 1, nTanModCalls := 1,
           nFamilyComputes := 1 }) :=
  (tangent_pass sampleTerm tScalar sampleState none "u" sampleS0 [tJ, tE]
    rfl).1 rfl

/-- C7: an `el_avg` or `qp` evaluation with `term_mode='strain'` hands
the Green strain taken directly from the cached family data to the
integration adapter, maps the mode to integration flag 1 (`el_avg`)
respectively 2 (`qp`), and invokes no material stress or tangent
function (stress cache and both material call counters are those of the
initial state). -/
theorem strain_eval (t : Term) (mat : Tensor) (st : FieldState)
    (dv mode : Option String)
    (hmode : mode = some "el_avg" ∨ mode = some "qp") (s : EvalState) :
    HyperElasticBase.get_fargs t mat st mode (some "strain") dv s
      = (.ok (.integrateArgs (fetchedFD t st s).1.green_strain
            (t.get_mapping st).1 (if mode = some "el_avg" then 1 else 2)),
         { s with evaluate_cache := (fetchedFD t st s).2.1,
                  nFamilyComputes := (fetchedFD t st s).2.2 }) := by
  unfold HyperElasticBase.get_fargs
  rcases hmode with hm | hm <;> subst hm <;> simp

/-- Closed instance of `strain_eval` on the sample term in `qp` mode:
the Green strain of the family data is returned with integration flag
2 and no material call is counted. -/
theorem strain_eval_witness :
    HyperElasticBase.get_fargs sampleTerm tScalar sampleState (some "qp")
        (some "strain") none sampleS0
      = (.ok (.integrateArgs tE sampleVG 2),
         { evaluate_cache :=
             [(("tl_common", 0, ["Omega", "i1"], none), sampleFD)],
           stress_cache := none, nStressCalls := 0, nTanModCalls := 0,
           nFamilyComputes := 1 }) :=
  strain_eval sampleTerm tScalar sampleState none (some "qp")
    (Or.inr rfl) sampleS0

/-- C10: `DeformationGradientTerm.get_fargs` does not reject an
unrecognized mode string: any mode other than `eval`, `el_avg` and `qp`
silently gets the integration flag 1 and the call behaves exactly as in
`el_avg` mode. -/
theorem def_grad_fargs_mode_default (t : DGTerm) (p : FieldState)
    (mode tm dv : Option String) (h1 : mode ≠ some "eval")
    (h2 : mode ≠ some "el_avg") (h3 : mode ≠ some "qp") :
    DeformationGradientTerm.get_fargs t p mode tm dv
      = DeformationGradientTerm.get_fargs t p (some "el_avg") tm dv ∧
    (DeformationGradientTerm.get_fargs t p mode tm dv).2.2.2.2 = 1 := by
  unfold DeformationGradientTerm.get_fargs
  simp [h1, h2, h3]

/-- Closed instance of `def_grad_fargs_mode_default` at
`mode = 'bogus'`: no error is raised, the result coincides with the
`el_avg` result, and the integration flag is 1. -/
theorem def_grad_fargs_mode_default_witness :
    DeformationGradientTerm.get_fargs sampleDGTerm sampleState
        (some "bogus") none none
      = DeformationGradientTerm.get_fargs sampleDGTerm sampleState
        (some "el_avg") none none ∧
    (DeformationGradientTerm.get_fargs sampleDGTerm sampleState
        (some "bogus") none none).2.2.2.2 = 1 :=
  def_grad_fargs_mode_default sampleDGTerm sampleState (some "bogus")
    none none (by decide) (by decide) (by decide)

end Sfepy
